import Mathlib

/-!
Shallow embedding of the `agate-ods` ODS parsing pipeline
(`src/agateods/table_ods.py` and `src/agateods/agate_ods.py`).

XML cells are modelled by their attribute dictionary (qualified attribute
names rendered as `prefix:local` strings, the namespace map being fixed by a
well-formed ODS document) together with the text payload of their first
`text:p` sub-element (`findtext`).  Python exceptions are modelled by an
explicit error type threaded through `Except`; a Python value that may be
`None` is an `Option String`.
-/

deriving instance DecidableEq for Except

namespace AgateOds

/-- Python exceptions raised by the pipeline.  `keyError` carries the key that
was looked up (`none` models Python `KeyError(None)`). -/
inductive PyErr where
  | keyError (k : Option String)
  | typeError (msg : String)
  | valueError (msg : String)
  | indexError
  | unsupportedFileExtensionError (msg : String)
  | badZipFile
deriving Repr, DecidableEq

/-- An ODS table cell: its XML attributes (as an association list from
qualified attribute name to value) and the text of its first `text:p` child
(`none` when `findtext` returns `None`). -/
structure Cell where
  attrib : List (String × String)
  pText : Option String
deriving Repr, DecidableEq

/-- `cell.attrib.get(key)` — dictionary lookup returning `None` when absent. -/
def attrGet (c : Cell) (k : String) : Option String :=
  (c.attrib.find? (fun kv => kv.1 == k)).map (fun kv => kv.2)

/-- `key in cell.attrib.keys()`. -/
def attrHasKey (c : Cell) (k : String) : Bool :=
  c.attrib.any (fun kv => kv.1 == k)

/-- Qualified name of `text:p` (`'{%s}p' % ns['text']`). -/
def p_tag : String := "text:p"

/-- Qualified name of `office:value-type`. -/
def value_type_attr : String := "office:value-type"

/-- Qualified name of `table:number-columns-repeated` (the padding marker). -/
def padding_attr : String := "table:number-columns-repeated"

/-- The `resolve_value_attr` dictionary of `resolve_data_value`: declared
value-type to the qualified attribute holding the typed value. -/
def resolve_value_attr : List (String × String) :=
  [("float", "office:value"),
   ("percentage", "office:value"),
   ("currency", "office:currency"),
   ("date", "office:date-value"),
   ("time", "office:time-value"),
   ("boolean", "office:boolean-value")]

/-- The code-point ranges of the Unicode general category Nd (decimal digit),
which is what the regex class `\d` matches for `str` patterns in Python `re`. -/
def unicodeNdRanges : List (Nat × Nat) :=
  [(0x30, 0x39), (0x660, 0x669), (0x6F0, 0x6F9), (0x7C0, 0x7C9),
   (0x966, 0x96F), (0x9E6, 0x9EF), (0xA66, 0xA6F), (0xAE6, 0xAEF),
   (0xB66, 0xB6F), (0xBE6, 0xBEF), (0xC66, 0xC6F), (0xCE6, 0xCEF),
   (0xD66, 0xD6F), (0xDE6, 0xDEF), (0xE50, 0xE59), (0xED0, 0xED9),
   (0xF20, 0xF29), (0x1040, 0x1049), (0x1090, 0x1099), (0x17E0, 0x17E9),
   (0x1810, 0x1819), (0x1946, 0x194F), (0x19D0, 0x19D9), (0x1A80, 0x1A89),
   (0x1A90, 0x1A99), (0x1B50, 0x1B59), (0x1BB0, 0x1BB9), (0x1C40, 0x1C49),
   (0x1C50, 0x1C59), (0xA620, 0xA629), (0xA8D0, 0xA8D9), (0xA900, 0xA909),
   (0xA9D0, 0xA9D9), (0xA9F0, 0xA9F9), (0xAA50, 0xAA59), (0xABF0, 0xABF9),
   (0xFF10, 0xFF19), (0x104A0, 0x104A9), (0x10D30, 0x10D39),
   (0x11066, 0x1106F), (0x110F0, 0x110F9), (0x11136, 0x1113F),
   (0x111D0, 0x111D9), (0x112F0, 0x112F9), (0x11450, 0x11459),
   (0x114D0, 0x114D9), (0x11650, 0x11659), (0x116C0, 0x116C9),
   (0x11730, 0x11739), (0x118E0, 0x118E9), (0x11950, 0x11959),
   (0x11C50, 0x11C59), (0x11D50, 0x11D59), (0x11DA0, 0x11DA9),
   (0x11F50, 0x11F59), (0x16A60, 0x16A69), (0x16AC0, 0x16AC9),
   (0x16B50, 0x16B59), (0x1D7CE, 0x1D7FF), (0x1E140, 0x1E149),
   (0x1E2F0, 0x1E2F9), (0x1E4F0, 0x1E4F9), (0x1E950, 0x1E959),
   (0x1FBF0, 0x1FBF9)]

/-- Membership in the regex class `\d` (Unicode decimal digit). -/
def isREDigit (c : Char) : Bool :=
  unicodeNdRanges.any (fun r => decide (r.1 ≤ c.toNat ∧ c.toNat ≤ r.2))

/-- `re.sub(r"[^\d.]+", "", value)`: delete every character that is neither a
`\d` digit nor a period. -/
def resolve_string_to_number (value : String) : String :=
  String.mk (value.data.filter (fun c => isREDigit c || c == '.'))

/-- `resolve_data_value(data_cell, ns)`.  Returns the Python value (a string
or `None`) or the exception it raises.  The `else` branch is the dictionary
lookup `data_cell.attrib.get(resolve_value_attr[cell_data_type])`, whose inner
`resolve_value_attr[...]` raises `KeyError` for a key outside the six entries
(including `None` for an undeclared value-type). -/
def resolve_data_value (data_cell : Cell) : Except PyErr (Option String) :=
  let cell_data_type := attrGet data_cell value_type_attr
  if cell_data_type == some "string" then
    .ok (some ((data_cell.pText).getD ""))
  else if cell_data_type == some "currency" then
    .ok (some (resolve_string_to_number ((data_cell.pText).getD "")))
  else
    match cell_data_type with
    | some t =>
      match resolve_value_attr.find? (fun kv => kv.1 == t) with
      | some kv => .ok (attrGet data_cell kv.2)
      | none => .error (.keyError (some t))
    | none => .error (.keyError none)

/-- The cells of a row whose padding attribute is absent (the cells the walker
keeps, in order). -/
def keptCells (cells : List Cell) : List Cell :=
  cells.filter (fun c => !(attrHasKey c padding_attr))

/-- Lookup in the `calculated_column_types` dictionary (keyed by column
number; the stored values are declared value-types, possibly `None`). -/
def calcLookup (cct : List (Nat × Option String)) (k : Nat) :
    Option (Option String) :=
  (cct.find? (fun kv => kv.1 == k)).map (fun kv => kv.2)

/-- The inner `for data_cell in table_row.iter(cell_tag)` loop of `from_ods`:
resolves each non-padding cell (appending its value to `row`) and, unless this
is the header row (`header and first_row`), records or checks the declared
value-type at the running column number, raising `TypeError` on a mismatch.
`rowsLen` is `len(rows)` at loop entry, used only in the error message. -/
def cellLoop (header first_row : Bool) (rowsLen : Nat) :
    List Cell → List (Option String) → Nat → List (Nat × Option String) →
    Except PyErr (List (Option String) × List (Nat × Option String))
  | [], row, _, cct => .ok (row, cct)
  | data_cell :: rest, row, column_number, cct =>
    let cell_data_type := attrGet data_cell value_type_attr
    if attrHasKey data_cell padding_attr then
      cellLoop header first_row rowsLen rest row column_number cct
    else
      match resolve_data_value data_cell with
      | .error e => .error e
      | .ok data_value =>
        if header && first_row then
          cellLoop header first_row rowsLen rest (row ++ [data_value])
            column_number cct
        else
          match calcLookup cct column_number with
          | none =>
            cellLoop header first_row rowsLen rest (row ++ [data_value])
              (column_number + 1) (cct ++ [(column_number, cell_data_type)])
          | some t =>
            if t ≠ cell_data_type then
              .error (.typeError ("Type mismatch at row " ++ toString rowsLen
                ++ " column " ++ toString column_number))
            else
              cellLoop header first_row rowsLen rest (row ++ [data_value])
                (column_number + 1) cct

/-- The mutable state of the outer row loop of `from_ods`. -/
structure LoopState where
  rows : List (List (Option String))
  first_row : Bool
  cct : List (Nat × Option String)
  skip_lines : Int
  row_limit : Option Int
deriving Repr, DecidableEq

/-- The outer `for table_row in sheet_to_operate_on.iter(table_row_tag)` loop
of `from_ods`: per row, run the cell loop (always updating the observation
dictionary), drop empty rows, apply the row-limit policy (`break` returns the
state as it stands), apply the skip-lines policy, and append retained rows. -/
def rowLoop (header : Bool) : List (List Cell) → LoopState →
    Except PyErr LoopState
  | [], st => .ok st
  | cells :: rest, st₀ =>
    match cellLoop header st₀.first_row st₀.rows.length cells [] 0 st₀.cct with
    | .error e => .error e
    | .ok (row, calc₁) =>
      let st₁ := { st₀ with cct := calc₁ }
      if row.isEmpty then
        rowLoop header rest st₁
      else
        match st₁.row_limit with
        | some rl =>
          if st₁.skip_lines ≤ 0 then
            if rl > 0 then
              let st₂ :=
                if st₁.first_row = false ∨ header = false then
                  { st₁ with row_limit := some (rl - 1) }
                else st₁
              if st₂.skip_lines > 0 ∧ ¬(header = true ∧ st₂.first_row = true) then
                rowLoop header rest { st₂ with skip_lines := st₂.skip_lines - 1 }
              else
                rowLoop header rest
                  { st₂ with first_row := false, rows := st₂.rows ++ [row] }
            else
              .ok st₁
          else
            if st₁.skip_lines > 0 ∧ ¬(header = true ∧ st₁.first_row = true) then
              rowLoop header rest { st₁ with skip_lines := st₁.skip_lines - 1 }
            else
              rowLoop header rest
                { st₁ with first_row := false, rows := st₁.rows ++ [row] }
        | none =>
          if st₁.skip_lines > 0 ∧ ¬(header = true ∧ st₁.first_row = true) then
            rowLoop header rest { st₁ with skip_lines := st₁.skip_lines - 1 }
          else
            rowLoop header rest
              { st₁ with first_row := false, rows := st₁.rows ++ [row] }

/-- One worksheet: its `table:name` attribute and its rows (each a list of
cell elements in document order). -/
structure Sheet where
  name : String
  rows : List (List Cell)
deriving Repr, DecidableEq

/-- The parsed `content.xml` document: its sheet (table) elements in document
order. -/
structure Doc where
  sheets : List Sheet
deriving Repr, DecidableEq

/-- The `sheet` argument of `from_ods`: `None`, an `int`, a `str`, or any
other Python value. -/
inductive Selector where
  | none
  | int (i : Int)
  | str (s : String)
  | other
deriving Repr, DecidableEq

/-- Python list indexing `l[i]`: non-negative indices from the front,
negative indices from the back, `IndexError` when out of range. -/
def pyGet {α : Type} (l : List α) (i : Int) : Except PyErr α :=
  if 0 ≤ i then
    match l.get? i.toNat with
    | some x => .ok x
    | none => .error .indexError
  else
    match l.get? ((l.length : Int) + i).toNat with
    | some x =>
      if 0 ≤ (l.length : Int) + i then .ok x else .error .indexError
    | none => .error .indexError

/-- The sheet-selection block of `from_ods` (lines building `sheetnames` and
`sheets` and resolving the `sheet` argument to `sheet_to_operate_on`). -/
def select_sheet (doc : Doc) (sheet : Selector) : Except PyErr Sheet :=
  let sheetnames := doc.sheets.map (fun s => s.name)
  let sheets := doc.sheets
  match sheet with
  | .none => pyGet sheets 0
  | .int i => pyGet sheets i
  | .str s =>
    if s ∈ sheetnames then
      pyGet sheets (sheetnames.indexOf s : Int)
    else
      .error (.valueError ("No sheet with name \x27" ++ s ++ "\x27"))
  | .other => .error (.valueError "sheet argument must be an int or string")

/-- The semantic column types of the host table library. -/
inductive AgateType where
  | text
  | number
  | dateTime
  | boolean
deriving Repr, DecidableEq

/-- The `ODS_TYPE_TO_AGATE` lookup table. -/
def ODS_TYPE_TO_AGATE : List (String × AgateType) :=
  [("string", .text),
   ("float", .number),
   ("currency", .number),
   ("date", .dateTime),
   ("time", .dateTime),
   ("boolean", .boolean),
   ("percentage", .number)]

/-- `ODS_TYPE_TO_AGATE[data_type]` — a dictionary lookup keyed by an observed
declared type (possibly `None`), raising `KeyError` when absent. -/
def odsTypeLookup (t : Option String) : Except PyErr AgateType :=
  match t with
  | some s =>
    match ODS_TYPE_TO_AGATE.find? (fun kv => kv.1 == s) with
    | some kv => .ok kv.2
    | none => .error (.keyError (some s))
  | none => .error (.keyError none)

/-- Insertion into a list sorted by column number (used to model
`sorted(calculated_column_types.items())`). -/
def insertSorted (x : Nat × Option String) :
    List (Nat × Option String) → List (Nat × Option String)
  | [] => [x]
  | y :: ys => if x.1 ≤ y.1 then x :: y :: ys else y :: insertSorted x ys

/-- `sorted(calculated_column_types.items())`. -/
def sortCalc : List (Nat × Option String) → List (Nat × Option String)
  | [] => []
  | x :: xs => insertSorted x (sortCalc xs)

/-- `[ODS_TYPE_TO_AGATE[data_type] for data_type in data_types]` over the
sorted observation dictionary, raising at the first unmapped type. -/
def mapOdsTypes : List (Option String) → Except PyErr (List AgateType)
  | [] => .ok []
  | t :: ts =>
    match odsTypeLookup t with
    | .error e => .error e
    | .ok a =>
      match mapOdsTypes ts with
      | .error e => .error e
      | .ok rest => .ok (a :: rest)

/-- The inferred column types of `from_ods` (lines 184-186): sort the
observation dictionary by column position and map each observed declared type
through `ODS_TYPE_TO_AGATE`. -/
def computed_column_types (cct : List (Nat × Option String)) :
    Except PyErr (List AgateType) :=
  mapOdsTypes ((sortCalc cct).map (fun kv => kv.2))

/-- The `agate.Table(...)` construction call at the end of `from_ods`.  The
source passes only `rows` and `column_names`; `column_types` records what the
call supplies for the types argument (`none` = not passed). -/
structure AgateTable where
  rows : List (List (Option String))
  column_names : List (Option String)
  column_types : Option (List AgateType)
deriving Repr, DecidableEq

/-- The `**kwargs` of `from_ods` (only `column_types` and `column_names` are
consulted). -/
structure Kwargs where
  column_types : Option (List AgateType)
  column_names : Option (List (Option String))
deriving Repr, DecidableEq

/-- Sheet selection followed by the row loop: the state of `from_ods` right
after the `for table_row ...` loop finishes. -/
def from_ods_state (doc : Doc) (sheet : Selector) (skip_lines : Int)
    (header : Bool) (row_limit : Option Int) : Except PyErr LoopState :=
  match select_sheet doc sheet with
  | .error e => .error e
  | .ok s =>
    rowLoop header s.rows
      { rows := [], first_row := true, cct := [], skip_lines := skip_lines,
        row_limit := row_limit }

/-- `from_ods(cls, file_path, sheet, skip_lines, header, row_limit, **kwargs)`
from the point where the content document is available (`doc`): sheet
selection, the row loop, the column-type computation (whose result is bound
to a local that the final construction never uses), the header/column-name
resolution, and the `agate.Table(rows=rows, column_names=columns)` call. -/
def from_ods (doc : Doc) (sheet : Selector) (skip_lines : Int) (header : Bool)
    (row_limit : Option Int) (kwargs : Kwargs) : Except PyErr AgateTable :=
  match from_ods_state doc sheet skip_lines header row_limit with
  | .error e => .error e
  | .ok st =>
    let ctsE : Except PyErr (List AgateType) :=
      match kwargs.column_types with
      | some ts => .ok ts
      | none => computed_column_types st.cct
    match ctsE with
    | .error e => .error e
    | .ok _cts =>
      if header then
        match st.rows with
        | [] => .error .indexError
        | r0 :: rest =>
          .ok { rows := rest, column_names := r0, column_types := none }
      else
        match kwargs.column_names with
        | some ns =>
          .ok { rows := st.rows, column_names := ns, column_types := none }
        | none =>
          .error (.valueError
            "column_names argument must be provided if header is set to be False")

/-- A filesystem path as the archive reader sees it: its name, whether it is
a valid ZIP archive (the oracle behind both `zipfile.is_zipfile` and the
success of `zipfile.ZipFile`), and — when it is one — the archive entry
names (`namelist()`). -/
structure OdsPath where
  name : String
  isZip : Bool
  entries : List String
deriving Repr, DecidableEq

/-- Python `str.split('.')`: the groups of characters between the dots
(always at least one group, possibly empty). -/
def splitDots : List Char → List (List Char)
  | [] => [[]]
  | c :: rest =>
    let r := splitDots rest
    if c = '.' then [] :: r
    else
      match r with
      | [] => [[c]]
      | g :: gs => (c :: g) :: gs

/-- `ods_file_path.split('.')[-1]`. -/
def pathExtension (name : String) : String :=
  String.mk ((splitDots name.data).getLastD [])

/-- `zipfile.ZipFile(ods_file_path, mode='r')`: opening a path that is not a
valid ZIP archive raises `BadZipFile`. -/
def zipFileOpen (p : OdsPath) : Except PyErr Unit :=
  if p.isZip = true then .ok () else .error .badZipFile

/-- `read_ods_content_file(ods_file_path)`: reject when the path is neither a
valid zip nor named `*.ods`; otherwise open the archive (which itself raises
`BadZipFile` for a non-archive) and return a handle to `content.xml` when
present (`none` models the implicit Python `None` when the entry is
absent). -/
def read_ods_content_file (p : OdsPath) : Except PyErr (Option Unit) :=
  let extension := pathExtension p.name
  if p.isZip = false ∧ extension ≠ "ods" then
    .error (.unsupportedFileExtensionError
      ("Failed to read " ++ p.name ++ " as an ODS file."))
  else
    match zipFileOpen p with
    | .error e => .error e
    | .ok _ =>
      if "content.xml" ∈ p.entries then .ok (some ()) else .ok none

/-- Number of rows of a sheet that are non-empty after padding removal (the
rows the walker does not drop as empty). -/
def nonEmptyRowCount (rows : List (List Cell)) : Nat :=
  (rows.filter (fun r => !(keptCells r).isEmpty)).length

/-- Declared value-type of the `j`-th non-padding cell of a row, when that
cell exists. -/
def keptTypeAt (cells : List Cell) (j : Nat) : Option (Option String) :=
  ((keptCells cells)[j]?).map (fun c => attrGet c value_type_attr)

/-- Whether value resolution of a cell succeeds (raises no exception). -/
def resolveOk (c : Cell) : Bool :=
  match resolve_data_value c with
  | .ok _ => true
  | .error _ => false

/-- Modelled from the spec words of the currency claim, for comparison with
the source behaviour: keep only ASCII digits and the decimal point. -/
def currencyAsciiStrip_spec (s : String) : String :=
  String.mk (s.data.filter (fun c => c.isDigit || c == '.'))

/-- A string cell (declared `string`, with paragraph text). -/
def strCell (t : String) : Cell := ⟨[("office:value-type", "string")], some t⟩

/-- A float cell (declared `float`, with an `office:value` attribute). -/
def floatCell (v : String) : Cell :=
  ⟨[("office:value-type", "float"), ("office:value", v)], none⟩

/-- Fixture: one sheet with a two-column header row and one data row holding
a float and a string. -/
def docHeaderFloatString : Doc :=
  ⟨[⟨"Sheet1", [[strCell "a", strCell "b"],
                [floatCell "1", strCell "x"]]⟩]⟩

/-- Fixture: one sheet with a header row, a one-cell float row, and a
two-cell row whose second column first appears there. -/
def docLimitObserve : Doc :=
  ⟨[⟨"Sheet1", [[strCell "a", strCell "b"],
                [floatCell "1"],
                [floatCell "2", strCell "x"]]⟩]⟩

/-- Fixture: one sheet with a header row, a float row, and a string row in
the same column as the float. -/
def docSkipMismatch : Doc :=
  ⟨[⟨"Sheet1", [[strCell "h"],
                [floatCell "1"],
                [strCell "y"]]⟩]⟩

/-- Fixture: two sheets with distinct names and different contents. -/
def docTwoSheets : Doc :=
  ⟨[⟨"Sheet1", [[strCell "h"], [strCell "v"]]⟩,
    ⟨"Sheet2", [[strCell "g"], [strCell "w"]]⟩]⟩

/-- Fixture: a header row followed by three float data rows. -/
def fourRows : List (List Cell) :=
  [[strCell "h"], [floatCell "1"], [floatCell "2"], [floatCell "3"]]

/-- Fixture: one sheet holding `fourRows`. -/
def docFourRows : Doc := ⟨[⟨"Sheet1", fourRows⟩]⟩

/-! ## Theorems -/

/-- C1: at a concrete document the column-type inference produces the
descriptors the claim describes (sorted observations mapped through
`ODS_TYPE_TO_AGATE`), yet the table construction call receives
`column_types := none` — the computed descriptors are never passed to the
table constructor. -/
theorem c1_column_types_never_passed :
    from_ods docHeaderFloatString .none 0 true Option.none
        ⟨Option.none, Option.none⟩ =
      .ok { rows := [[some "1", some "x"]],
            column_names := [some "a", some "b"],
            column_types := Option.none } ∧
    (from_ods_state docHeaderFloatString .none 0 true Option.none).map
        (fun st => st.cct) = .ok [(0, some "float"), (1, some "string")] ∧
    computed_column_types [(0, some "float"), (1, some "string")] =
      .ok [AgateType.number, AgateType.text] :=
  ⟨rfl, rfl, rfl⟩

/-- C4 counterexample: a cell with no declared value-type does not resolve to
its paragraph text (the behaviour of a `string` cell); resolution raises
`KeyError(None)` instead. -/
theorem c4_counterexample :
    resolve_data_value ⟨[], some "x"⟩ ≠ .ok (some "x") ∧
    resolve_data_value ⟨[], some "x"⟩ = .error (.keyError Option.none) ∧
    resolve_data_value ⟨[("office:value-type", "string")], some "x"⟩ =
      .ok (some "x") :=
  ⟨by decide, rfl, rfl⟩

/-- C4 amended: for every cell whose declared value-type attribute is absent,
value resolution falls into the typed-attribute branch and fails with
`KeyError(None)`; only cells explicitly declared `string` get the
paragraph-text behaviour. -/
theorem c4_undeclared_raises_keyerror (c : Cell)
    (h : attrGet c value_type_attr = Option.none) :
    resolve_data_value c = .error (.keyError Option.none) := by
  simp [resolve_data_value, h]

/-- Witness for `c4_undeclared_raises_keyerror`. -/
theorem c4_undeclared_raises_keyerror_witness :
    resolve_data_value ⟨[], some "x"⟩ = .error (.keyError Option.none) :=
  c4_undeclared_raises_keyerror ⟨[], some "x"⟩ rfl

/-- C6 counterexample: the character U+0661 (ARABIC-INDIC DIGIT ONE) is not
an ASCII digit, so the claim requires it to be removed from a currency cell;
the code's regex class `\d` matches it, so resolution keeps it. -/
theorem c6_counterexample :
    resolve_data_value ⟨[("office:value-type", "currency")],
        some (String.mk [Char.ofNat 1633, '5'])⟩ =
      .ok (some (String.mk [Char.ofNat 1633, '5'])) ∧
    currencyAsciiStrip_spec (String.mk [Char.ofNat 1633, '5']) = "5" ∧
    String.mk [Char.ofNat 1633, '5'] ≠ "5" :=
  ⟨rfl, rfl, by decide⟩

/-- C6 amended: for every cell declared `currency`, value resolution takes
the paragraph text and removes every character that is not a decimal digit in
the sense of the regex class `\d` (Unicode decimal digit) or a decimal point;
in particular `"$1,234.56"` resolves to `"1234.56"`. -/
theorem c6_currency_strips (c : Cell)
    (h : attrGet c value_type_attr = some "currency") :
    resolve_data_value c =
      .ok (some (String.mk ((c.pText.getD "").data.filter
        (fun ch => isREDigit ch || ch == '.')))) ∧
    resolve_string_to_number "$1,234.56" = "1234.56" := by
  refine ⟨?_, rfl⟩
  simp [resolve_data_value, h, resolve_string_to_number]

/-- Witness for `c6_currency_strips`. -/
theorem c6_currency_strips_witness :
    resolve_data_value ⟨[("office:value-type", "currency")],
        some "$1,234.56"⟩ =
      .ok (some (String.mk (("$1,234.56" : String).data.filter
        (fun ch => isREDigit ch || ch == '.')))) ∧
    resolve_string_to_number "$1,234.56" = "1234.56" :=
  c6_currency_strips ⟨[("office:value-type", "currency")], some "$1,234.56"⟩
    rfl

/-- C7 counterexample: a cell declared `float` with no `office:value`
attribute resolves to `None` (a produced value), not to a lookup error. -/
theorem c7_counterexample :
    resolve_data_value ⟨[("office:value-type", "float")], Option.none⟩ =
      .ok Option.none ∧
    (Except.ok Option.none : Except PyErr (Option String)) ≠
      .error (.keyError (some "office:value")) :=
  ⟨rfl, by decide⟩

/-- C7 amended: for every cell whose declared value-type is one of the typed
kinds (`float`, `percentage`, `date`, `time`, `boolean`) but whose
type-specific value attribute is absent, value resolution returns `None`
(the dictionary `.get` default) rather than failing. -/
theorem c7_absent_value_attr_yields_none (c : Cell) (t a : String)
    (ht : attrGet c value_type_attr = some t)
    (hf : resolve_value_attr.find? (fun kv => kv.1 == t) = some (t, a))
    (hs : t ≠ "string") (hc : t ≠ "currency")
    (ha : attrGet c a = Option.none) :
    resolve_data_value c = .ok Option.none := by
  simp only [resolve_data_value, ht]
  rw [if_neg (by simp [hs]), if_neg (by simp [hc]), hf]
  simpa using ha

/-- Witness for `c7_absent_value_attr_yields_none`. -/
theorem c7_absent_value_attr_yields_none_witness :
    resolve_data_value ⟨[("office:value-type", "float")], Option.none⟩ =
      .ok Option.none :=
  c7_absent_value_attr_yields_none
    ⟨[("office:value-type", "float")], Option.none⟩ "float" "office:value"
    rfl rfl (by decide) (by decide) rfl

/-- C8: the archive reader fails with the unsupported-format error exactly
when the path is not a valid ZIP archive and its extension is not `ods`;
when either check passes that error is not raised and the reader proceeds to
open the archive: a valid ZIP (any name) returns a handle or the implicit
`None`, while a non-ZIP named `*.ods` reaches the archive open, which raises
`BadZipFile` instead. -/
theorem c8_unsupported_format (p : OdsPath) :
    (read_ods_content_file p =
        .error (.unsupportedFileExtensionError
          ("Failed to read " ++ p.name ++ " as an ODS file.")) ↔
      (p.isZip = false ∧ pathExtension p.name ≠ "ods")) ∧
    (p.isZip = true → ∃ r, read_ods_content_file p = .ok r) ∧
    (p.isZip = false → pathExtension p.name = "ods" →
      read_ods_content_file p = .error .badZipFile) := by
  refine ⟨⟨?_, ?_⟩, ?_, ?_⟩
  · intro h
    by_contra hcond
    rw [read_ods_content_file, if_neg hcond] at h
    cases hz : p.isZip with
    | false => simp [zipFileOpen, hz] at h
    | true =>
      by_cases hm : "content.xml" ∈ p.entries
      · simp [zipFileOpen, hz, hm] at h
      · simp [zipFileOpen, hz, hm] at h
  · intro hcond
    rw [read_ods_content_file, if_pos hcond]
  · intro hz
    have hcond : ¬(p.isZip = false ∧ pathExtension p.name ≠ "ods") := by
      intro hc
      rw [hz] at hc
      exact Bool.noConfusion hc.1
    by_cases hm : "content.xml" ∈ p.entries
    · exact ⟨some (), by
        rw [read_ods_content_file, if_neg hcond]
        simp [zipFileOpen, hz, hm]⟩
    · exact ⟨none, by
        rw [read_ods_content_file, if_neg hcond]
        simp [zipFileOpen, hz, hm]⟩
  · intro hz hext
    have hcond : ¬(p.isZip = false ∧ pathExtension p.name ≠ "ods") :=
      fun hc => hc.2 hext
    rw [read_ods_content_file, if_neg hcond]
    simp [zipFileOpen, hz]

/-- Witness for `c8_unsupported_format`. -/
theorem c8_unsupported_format_witness :
    read_ods_content_file ⟨"a.txt", false, []⟩ =
      .error (.unsupportedFileExtensionError
        "Failed to read a.txt as an ODS file.") ∧
    (∃ r, read_ods_content_file ⟨"a.zip", true, ["content.xml"]⟩ = .ok r) ∧
    read_ods_content_file ⟨"a.ods", false, ["content.xml"]⟩ =
      .error .badZipFile :=
  ⟨(c8_unsupported_format ⟨"a.txt", false, []⟩).1.mpr ⟨rfl, by decide⟩,
   (c8_unsupported_format ⟨"a.zip", true, ["content.xml"]⟩).2.1 rfl,
   (c8_unsupported_format ⟨"a.ods", false, ["content.xml"]⟩).2.2 rfl
     (by decide)⟩

/-- Equal sheet-selection results give equal `from_ods` results. -/
theorem from_ods_congr_select (doc : Doc) (sel₁ sel₂ : Selector)
    (skip_lines : Int) (header : Bool) (row_limit : Option Int)
    (kwargs : Kwargs)
    (h : select_sheet doc sel₁ = select_sheet doc sel₂) :
    from_ods doc sel₁ skip_lines header row_limit kwargs =
      from_ods doc sel₂ skip_lines header row_limit kwargs := by
  unfold from_ods from_ods_state
  rw [h]

/-- C5: selecting a sheet by a name present in the document is identical to
selecting it by its 0-based position; a name matching no sheet fails with the
no-such-sheet error; a selector of any other type fails with the
invalid-argument error. -/
theorem c5_sheet_selection (doc : Doc) (s : String) (skip_lines : Int)
    (header : Bool) (row_limit : Option Int) (kwargs : Kwargs) :
    (s ∈ doc.sheets.map (fun sh => sh.name) →
      from_ods doc (.str s) skip_lines header row_limit kwargs =
        from_ods doc
          (.int ((doc.sheets.map (fun sh => sh.name)).indexOf s : Int))
          skip_lines header row_limit kwargs) ∧
    (s ∉ doc.sheets.map (fun sh => sh.name) →
      from_ods doc (.str s) skip_lines header row_limit kwargs =
        .error (.valueError ("No sheet with name \x27" ++ s ++ "\x27"))) ∧
    from_ods doc .other skip_lines header row_limit kwargs =
      .error (.valueError "sheet argument must be an int or string") := by
  refine ⟨fun hmem => ?_, fun hmem => ?_, ?_⟩
  · exact from_ods_congr_select doc _ _ _ _ _ _ (by simp [select_sheet, hmem])
  · unfold from_ods from_ods_state
    simp [select_sheet, hmem]
  · unfold from_ods from_ods_state
    simp [select_sheet]

/-- Witness for `c5_sheet_selection`. -/
theorem c5_sheet_selection_witness :
    from_ods docTwoSheets (.str "Sheet2") 0 true Option.none
        ⟨Option.none, Option.none⟩ =
      from_ods docTwoSheets
        (.int ((docTwoSheets.sheets.map (fun sh => sh.name)).indexOf
          "Sheet2" : Int)) 0 true Option.none ⟨Option.none, Option.none⟩ ∧
    from_ods docTwoSheets (.str "Nope") 0 true Option.none
        ⟨Option.none, Option.none⟩ =
      .error (.valueError "No sheet with name \x27Nope\x27") :=
  ⟨(c5_sheet_selection docTwoSheets "Sheet2" 0 true Option.none
      ⟨Option.none, Option.none⟩).1 (by decide),
   (c5_sheet_selection docTwoSheets "Nope" 0 true Option.none
      ⟨Option.none, Option.none⟩).2.1 (by decide)⟩

/-- Python negative indexing on the sheet list: in range, it selects from the
end and is the same as indexing at `length + s`. -/
theorem pyGet_negative {α : Type} (l : List α) (s : Int)
    (h1 : -(l.length : Int) ≤ s) (h2 : s ≤ -1) :
    pyGet l s = pyGet l ((l.length : Int) + s) ∧
    ∃ x, pyGet l s = .ok x := by
  have hs : ¬ (0 : Int) ≤ s := by omega
  have hj : (0 : Int) ≤ (l.length : Int) + s := by omega
  have hjlt : ((l.length : Int) + s).toNat < l.length := by omega
  have hget := List.getElem?_eq_getElem hjlt
  constructor
  · simp [pyGet, hs, hj, hget]
  · exact ⟨l[((l.length : Int) + s).toNat], by simp [pyGet, hs, hj, hget]⟩

/-- C10: a negative integer sheet selector `s` with `-k ≤ s ≤ -1` (where `k`
is the number of sheets) does not raise an out-of-range error; it selects the
sheet at position `k + s`, and `from_ods` yields the same result as with that
non-negative position. -/
theorem c10_negative_sheet_index (doc : Doc) (s : Int) (skip_lines : Int)
    (header : Bool) (row_limit : Option Int) (kwargs : Kwargs)
    (h1 : -(doc.sheets.length : Int) ≤ s) (h2 : s ≤ -1) :
    (∃ sh, select_sheet doc (.int s) = .ok sh) ∧
    from_ods doc (.int s) skip_lines header row_limit kwargs =
      from_ods doc (.int ((doc.sheets.length : Int) + s)) skip_lines header
        row_limit kwargs := by
  obtain ⟨heq, x, hx⟩ := pyGet_negative doc.sheets s h1 h2
  constructor
  · exact ⟨x, hx⟩
  · exact from_ods_congr_select doc _ _ _ _ _ _ heq

/-- Witness for `c10_negative_sheet_index`. -/
theorem c10_negative_sheet_index_witness :
    (∃ sh, select_sheet docTwoSheets (.int (-1)) = .ok sh) ∧
    from_ods docTwoSheets (.int (-1)) 0 true Option.none
        ⟨Option.none, Option.none⟩ =
      from_ods docTwoSheets (.int ((docTwoSheets.sheets.length : Int) + -1))
        0 true Option.none ⟨Option.none, Option.none⟩ :=
  c10_negative_sheet_index docTwoSheets (-1) 0 true Option.none
    ⟨Option.none, Option.none⟩ (by decide) (by decide)

/-! ## Cell-loop lemmas -/

/-- A padding cell is dropped from the kept cells. -/
theorem keptCells_cons_pos {c : Cell} {rest : List Cell}
    (hpad : attrHasKey c padding_attr = true) :
    keptCells (c :: rest) = keptCells rest := by
  simp [keptCells, hpad]

/-- A non-padding cell is kept. -/
theorem keptCells_cons_neg {c : Cell} {rest : List Cell}
    (hpad : attrHasKey c padding_attr = false) :
    keptCells (c :: rest) = c :: keptCells rest := by
  simp [keptCells, hpad]

/-- Appending an entry with a fresh key does not change lookups at other
keys. -/
theorem calcLookup_append_ne (cct : List (Nat × Option String)) (k : Nat)
    (v : Option String) (j : Nat) (hne : j ≠ k) :
    calcLookup (cct ++ [(k, v)]) j = calcLookup cct j := by
  induction cct with
  | nil => simp [calcLookup, Ne.symm hne]
  | cons kv rest ih =>
    by_cases hk : (kv.1 == j) = true
    · simp [calcLookup, hk]
    · simp only [calcLookup, List.cons_append, List.find?] at ih ⊢
      rw [Bool.not_eq_true] at hk
      simp only [hk]
      exact ih

/-- The cell loop appends exactly one resolved value per kept cell. -/
theorem cellLoop_ok_length (h fr : Bool) (n : Nat) (cells : List Cell) :
    ∀ (row₀ : List (Option String)) (col : Nat)
      (cct : List (Nat × Option String)) (row' : List (Option String))
      (cct' : List (Nat × Option String)),
    cellLoop h fr n cells row₀ col cct = .ok (row', cct') →
    row'.length = row₀.length + (keptCells cells).length := by
  induction cells with
  | nil =>
    intro row₀ col cct row' cct' heq
    simp only [cellLoop, Except.ok.injEq, Prod.mk.injEq] at heq
    simp [keptCells, ← heq.1]
  | cons c rest ih =>
    intro row₀ col cct row' cct' heq
    simp only [cellLoop] at heq
    by_cases hpad : attrHasKey c padding_attr = true
    · rw [if_pos hpad] at heq
      rw [keptCells_cons_pos hpad]
      exact ih _ _ _ _ _ heq
    · rw [if_neg hpad] at heq
      rw [Bool.not_eq_true] at hpad
      rw [keptCells_cons_neg hpad]
      cases hres : resolve_data_value c with
      | error e => simp [hres] at heq
      | ok v =>
        simp only [hres] at heq
        by_cases hgate : (h && fr) = true
        · rw [if_pos hgate] at heq
          have := ih _ _ _ _ _ heq
          simp at this
          simp [this]
          omega
        · rw [if_neg hgate] at heq
          cases hlk : calcLookup cct col with
          | none =>
            simp only [hlk] at heq
            have := ih _ _ _ _ _ heq
            simp at this
            simp [this]
            omega
          | some t =>
            simp only [hlk] at heq
            by_cases hne : t ≠ attrGet c value_type_attr
            · rw [if_pos hne] at heq
              exact absurd heq (by simp)
            · rw [if_neg hne] at heq
              have := ih _ _ _ _ _ heq
              simp at this
              simp [this]
              omega

/-- The `len(rows)` argument only feeds the mismatch error message: a
successful cell loop gives the same result at any other value. -/
theorem cellLoop_ok_n (h fr : Bool) (n n' : Nat) (cells : List Cell) :
    ∀ (row₀ : List (Option String)) (col : Nat)
      (cct : List (Nat × Option String))
      (p : List (Option String) × List (Nat × Option String)),
    cellLoop h fr n cells row₀ col cct = .ok p →
    cellLoop h fr n' cells row₀ col cct = .ok p := by
  induction cells with
  | nil => intro row₀ col cct p heq; simpa [cellLoop] using heq
  | cons c rest ih =>
    intro row₀ col cct p heq
    simp only [cellLoop] at heq ⊢
    by_cases hpad : attrHasKey c padding_attr = true
    · rw [if_pos hpad] at heq ⊢
      exact ih _ _ _ _ heq
    · rw [if_neg hpad] at heq ⊢
      cases hres : resolve_data_value c with
      | error e => simp [hres] at heq
      | ok v =>
        simp only [hres] at heq ⊢
        by_cases hgate : (h && fr) = true
        · rw [if_pos hgate] at heq ⊢
          exact ih _ _ _ _ heq
        · rw [if_neg hgate] at heq ⊢
          cases hlk : calcLookup cct col with
          | none =>
            simp only [hlk] at heq ⊢
            exact ih _ _ _ _ heq
          | some t =>
            simp only [hlk] at heq ⊢
            by_cases hne : t ≠ attrGet c value_type_attr
            · rw [if_pos hne] at heq
              exact absurd heq (by simp)
            · rw [if_neg hne] at heq ⊢
              exact ih _ _ _ _ heq

/-- The cell loop depends on `header` and `first_row` only through their
conjunction (the header gate). -/
theorem cellLoop_gate (h fr h' fr' : Bool) (hg : (h && fr) = (h' && fr'))
    (n : Nat) (cells : List Cell) :
    ∀ (row₀ : List (Option String)) (col : Nat)
      (cct : List (Nat × Option String)),
    cellLoop h fr n cells row₀ col cct = cellLoop h' fr' n cells row₀ col cct := by
  induction cells with
  | nil => intro row₀ col cct; simp [cellLoop]
  | cons c rest ih =>
    intro row₀ col cct
    simp only [cellLoop]
    by_cases hpad : attrHasKey c padding_attr = true
    · rw [if_pos hpad, if_pos hpad]
      exact ih _ _ _
    · rw [if_neg hpad, if_neg hpad]
      cases hres : resolve_data_value c with
      | error e => rfl
      | ok v =>
        simp only
        by_cases hgate : (h && fr) = true
        · rw [if_pos hgate, if_pos (hg ▸ hgate)]
          exact ih _ _ _
        · rw [if_neg hgate, if_neg (hg ▸ hgate)]
          cases hlk : calcLookup cct col with
          | none => simp only [hlk]; exact ih _ _ _
          | some t =>
            simp only [hlk]
            by_cases hne : t ≠ attrGet c value_type_attr
            · rw [if_pos hne, if_pos hne]
            · rw [if_neg hne, if_neg hne]
              exact ih _ _ _

/-- `resolveOk` means resolution returns a value. -/
theorem resolveOk_iff (c : Cell) :
    resolveOk c = true ↔ ∃ v, resolve_data_value c = .ok v := by
  cases hres : resolve_data_value c with
  | error e => simp [resolveOk, hres]
  | ok v => simp [resolveOk, hres]

/-- If the cell loop succeeds on a non-header row, every kept cell whose
column already carries a recorded type agrees with that record. -/
theorem cellLoop_ok_consistent (h fr : Bool) (hgate : (h && fr) = false)
    (n : Nat) (cells : List Cell) :
    ∀ (row₀ : List (Option String)) (col : Nat)
      (cct : List (Nat × Option String)) (row' : List (Option String))
      (cct' : List (Nat × Option String)),
    cellLoop h fr n cells row₀ col cct = .ok (row', cct') →
    ∀ (j : Nat) (t t' : Option String),
      calcLookup cct (col + j) = some t →
      keptTypeAt cells j = some t' → t' = t := by
  induction cells with
  | nil =>
    intro row₀ col cct row' cct' _ j t t' _ hkt
    simp [keptTypeAt, keptCells] at hkt
  | cons c rest ih =>
    intro row₀ col cct row' cct' heq j t t' hlkp hkt
    simp only [cellLoop] at heq
    by_cases hpad : attrHasKey c padding_attr = true
    · rw [if_pos hpad] at heq
      have hkt' : keptTypeAt rest j = some t' := by
        rw [keptTypeAt, ← keptCells_cons_pos hpad]
        exact hkt
      exact ih _ _ _ _ _ heq j t t' hlkp hkt'
    · rw [if_neg hpad] at heq
      rw [Bool.not_eq_true] at hpad
      cases hres : resolve_data_value c with
      | error e => simp [hres] at heq
      | ok v =>
        simp only [hres] at heq
        rw [if_neg (by simp [hgate])] at heq
        cases hlk : calcLookup cct col with
        | none =>
          simp only [hlk] at heq
          cases j with
          | zero => rw [Nat.add_zero, hlk] at hlkp; cases hlkp
          | succ j' =>
            have hkt' : keptTypeAt rest j' = some t' := by
              rw [keptTypeAt] at hkt ⊢
              rw [keptCells_cons_neg hpad] at hkt
              simpa using hkt
            have hlkp' :
                calcLookup (cct ++ [(col, attrGet c value_type_attr)])
                  (col + 1 + j') = some t := by
              rw [calcLookup_append_ne _ _ _ _ (by omega)]
              have harith : col + 1 + j' = col + (j' + 1) := by omega
              rw [harith]
              exact hlkp
            exact ih _ _ _ _ _ heq j' t t' hlkp' hkt'
        | some t₀ =>
          simp only [hlk] at heq
          by_cases hne : t₀ ≠ attrGet c value_type_attr
          · rw [if_pos hne] at heq
            exact absurd heq (by simp)
          · rw [if_neg hne] at heq
            push_neg at hne
            cases j with
            | zero =>
              rw [Nat.add_zero, hlk] at hlkp
              have ht : t₀ = t := by injection hlkp
              have ht' : t' = attrGet c value_type_attr := by
                rw [keptTypeAt, keptCells_cons_neg hpad] at hkt
                simpa using hkt.symm
              rw [ht', ← hne, ht]
            | succ j' =>
              have hkt' : keptTypeAt rest j' = some t' := by
                rw [keptTypeAt] at hkt ⊢
                rw [keptCells_cons_neg hpad] at hkt
                simpa using hkt
              have hlkp' : calcLookup cct (col + 1 + j') = some t := by
                have harith : col + 1 + j' = col + (j' + 1) := by omega
                rw [harith]
                exact hlkp
              exact ih _ _ _ _ _ heq j' t t' hlkp' hkt'

/-- If a kept cell sits at a column whose recorded type differs from its own
declared type — all earlier kept cells resolving and matching or extending
the record — the cell loop of a non-header row fails with the type-mismatch
error naming the row and that column. -/
theorem cellLoop_mismatch (h fr : Bool) (hgate : (h && fr) = false) (n : Nat)
    (cells : List Cell) :
    ∀ (row₀ : List (Option String)) (col : Nat)
      (cct : List (Nat × Option String)) (j : Nat) (t t' : Option String),
    (∀ i, i < j → ∃ c, (keptCells cells)[i]? = some c ∧
        resolveOk c = true ∧
        (calcLookup cct (col + i) = none ∨
         calcLookup cct (col + i) = some (attrGet c value_type_attr))) →
    calcLookup cct (col + j) = some t →
    keptTypeAt cells j = some t' →
    (∃ c, (keptCells cells)[j]? = some c ∧ resolveOk c = true) →
    t' ≠ t →
    cellLoop h fr n cells row₀ col cct =
      .error (.typeError ("Type mismatch at row " ++ toString n ++
        " column " ++ toString (col + j))) := by
  induction cells with
  | nil =>
    intro row₀ col cct j t t' _ _ hkt _ _
    simp [keptTypeAt, keptCells] at hkt
  | cons c rest ih =>
    intro row₀ col cct j t t' hpre hlkp hkt hres₀ hne
    simp only [cellLoop]
    by_cases hpad : attrHasKey c padding_attr = true
    · rw [if_pos hpad]
      refine ih _ _ _ j t t' ?_ hlkp ?_ ?_ hne
      · intro i hi
        have := hpre i hi
        rwa [keptCells_cons_pos hpad] at this
      · rwa [keptTypeAt, ← keptCells_cons_pos hpad]
      · rwa [← keptCells_cons_pos hpad]
    · rw [if_neg hpad]
      rw [Bool.not_eq_true] at hpad
      cases j with
      | zero =>
        obtain ⟨c₀, hc₀, hok₀⟩ := hres₀
        rw [keptCells_cons_neg hpad] at hc₀
        simp at hc₀
        subst hc₀
        obtain ⟨v, hv⟩ := (resolveOk_iff c).mp hok₀
        simp only [hv]
        rw [if_neg (by simp [hgate])]
        rw [Nat.add_zero] at hlkp
        simp only [hlkp]
        have ht' : t' = attrGet c value_type_attr := by
          rw [keptTypeAt, keptCells_cons_neg hpad] at hkt
          simpa using hkt.symm
        rw [if_pos (by rw [← ht']; exact fun hh => hne hh.symm)]
        simp
      | succ j' =>
        obtain ⟨c₀, hc₀, hok₀, hcompat⟩ := hpre 0 (Nat.succ_pos j')
        rw [keptCells_cons_neg hpad] at hc₀
        simp at hc₀
        subst hc₀
        obtain ⟨v, hv⟩ := (resolveOk_iff c).mp hok₀
        simp only [hv]
        rw [if_neg (by simp [hgate])]
        rw [Nat.add_zero] at hcompat
        have harith : col + (j' + 1) = col + 1 + j' := by omega
        rcases hcompat with hnone | hsome
        · simp only [hnone]
          rw [harith]
          refine ih _ _ _ j' t t' ?_ ?_ ?_ ?_ hne
          · intro i hi
            obtain ⟨ci, hci, hoki, hcompi⟩ := hpre (i + 1) (by omega)
            rw [keptCells_cons_neg hpad] at hci
            simp at hci
            refine ⟨ci, hci, hoki, ?_⟩
            have harith2 : col + 1 + i = col + (i + 1) := by omega
            rw [harith2, calcLookup_append_ne _ _ _ _ (by omega)]
            exact hcompi
          · rw [calcLookup_append_ne _ _ _ _ (by omega)]
            rw [← harith]
            exact hlkp
          · rw [keptTypeAt, keptCells_cons_neg hpad] at hkt
            rw [keptTypeAt]
            simpa using hkt
          · obtain ⟨cj, hcj, hokj⟩ := hres₀
            rw [keptCells_cons_neg hpad] at hcj
            simp at hcj
            exact ⟨cj, hcj, hokj⟩
        · simp only [hsome]
          rw [if_neg (by simp)]
          rw [harith]
          refine ih _ _ _ j' t t' ?_ ?_ ?_ ?_ hne
          · intro i hi
            obtain ⟨ci, hci, hoki, hcompi⟩ := hpre (i + 1) (by omega)
            rw [keptCells_cons_neg hpad] at hci
            simp at hci
            refine ⟨ci, hci, hoki, ?_⟩
            have harith2 : col + 1 + i = col + (i + 1) := by omega
            rw [harith2]
            exact hcompi
          · rw [← harith]
            exact hlkp
          · rw [keptTypeAt, keptCells_cons_neg hpad] at hkt
            rw [keptTypeAt]
            simpa using hkt
          · obtain ⟨cj, hcj, hokj⟩ := hres₀
            rw [keptCells_cons_neg hpad] at hcj
            simp at hcj
            exact ⟨cj, hcj, hokj⟩

/-! ## Row-loop step lemmas -/

/-- A cell-loop failure aborts the row loop. -/
theorem rowLoop_cons_error (h : Bool) (cells : List Cell)
    (rest : List (List Cell)) (st : LoopState) (e : PyErr)
    (hcl : cellLoop h st.first_row st.rows.length cells [] 0 st.cct =
      .error e) :
    rowLoop h (cells :: rest) st = .error e := by
  simp [rowLoop, hcl]

/-- A row that is empty after padding removal is dropped (the observation
dictionary update is kept). -/
theorem rowLoop_cons_empty (h : Bool) (cells : List Cell)
    (rest : List (List Cell)) (st : LoopState) (row : List (Option String))
    (cct₁ : List (Nat × Option String))
    (hcl : cellLoop h st.first_row st.rows.length cells [] 0 st.cct =
      .ok (row, cct₁))
    (hrow : row.isEmpty = true) :
    rowLoop h (cells :: rest) st = rowLoop h rest { st with cct := cct₁ } := by
  simp [rowLoop, hcl, hrow]

/-- An exhausted row limit stops the loop (`break`), returning the state with
the current row already observed. -/
theorem rowLoop_cons_break (h : Bool) (cells : List Cell)
    (rest : List (List Cell)) (st : LoopState) (row : List (Option String))
    (cct₁ : List (Nat × Option String)) (rl : Int)
    (hcl : cellLoop h st.first_row st.rows.length cells [] 0 st.cct =
      .ok (row, cct₁))
    (hrow : row.isEmpty = false) (hlim : st.row_limit = some rl)
    (hsk : st.skip_lines ≤ 0) (hrl : rl ≤ 0) :
    rowLoop h (cells :: rest) st = .ok { st with cct := cct₁ } := by
  simp [rowLoop, hcl, hrow, hlim, hsk]
  intro hpos
  exact absurd hpos (by omega)

/-- With the skip budget consumed and a positive remaining limit, a non-first
(or headerless) non-empty row decrements the limit and is appended. -/
theorem rowLoop_cons_limit_dec (h : Bool) (cells : List Cell)
    (rest : List (List Cell)) (st : LoopState) (row : List (Option String))
    (cct₁ : List (Nat × Option String)) (rl : Int)
    (hcl : cellLoop h st.first_row st.rows.length cells [] 0 st.cct =
      .ok (row, cct₁))
    (hrow : row.isEmpty = false) (hlim : st.row_limit = some rl)
    (hsk : st.skip_lines ≤ 0) (hrl : 0 < rl)
    (hfr : st.first_row = false ∨ h = false) :
    rowLoop h (cells :: rest) st =
      rowLoop h rest { rows := st.rows ++ [row], first_row := false,
                       cct := cct₁, skip_lines := st.skip_lines,
                       row_limit := some (rl - 1) } := by
  simp [rowLoop, hcl, hrow, hlim, hsk, hrl, hfr, (by omega : ¬ st.skip_lines > 0)]

/-- With the skip budget consumed and a positive remaining limit, the header
row (first row with `header = true`) is appended without decrementing the
limit. -/
theorem rowLoop_cons_limit_first (cells : List Cell)
    (rest : List (List Cell)) (st : LoopState) (row : List (Option String))
    (cct₁ : List (Nat × Option String)) (rl : Int)
    (hcl : cellLoop true st.first_row st.rows.length cells [] 0 st.cct =
      .ok (row, cct₁))
    (hrow : row.isEmpty = false) (hlim : st.row_limit = some rl)
    (hsk : st.skip_lines ≤ 0) (hrl : 0 < rl) (hfr : st.first_row = true) :
    rowLoop true (cells :: rest) st =
      rowLoop true rest { rows := st.rows ++ [row], first_row := false,
                          cct := cct₁, skip_lines := st.skip_lines,
                          row_limit := some rl } := by
  rw [hfr] at hcl
  simp [rowLoop, hcl, hrow, hlim, hsk, hrl, hfr, (by omega : ¬ st.skip_lines > 0)]

/-- Without a row limit, a pending skip discards a non-header row,
decrementing the skip counter. -/
theorem rowLoop_cons_none_skip (h : Bool) (cells : List Cell)
    (rest : List (List Cell)) (st : LoopState) (row : List (Option String))
    (cct₁ : List (Nat × Option String))
    (hcl : cellLoop h st.first_row st.rows.length cells [] 0 st.cct =
      .ok (row, cct₁))
    (hrow : row.isEmpty = false) (hlim : st.row_limit = none)
    (hskip : 0 < st.skip_lines)
    (hgate : ¬(h = true ∧ st.first_row = true)) :
    rowLoop h (cells :: rest) st =
      rowLoop h rest
        { st with cct := cct₁, skip_lines := st.skip_lines - 1 } := by
  simp [rowLoop, hcl, hrow, hlim, hskip, hgate]

/-- Without a row limit and with no effective skip, a non-empty row is
appended and the first-row flag cleared. -/
theorem rowLoop_cons_none_append (h : Bool) (cells : List Cell)
    (rest : List (List Cell)) (st : LoopState) (row : List (Option String))
    (cct₁ : List (Nat × Option String))
    (hcl : cellLoop h st.first_row st.rows.length cells [] 0 st.cct =
      .ok (row, cct₁))
    (hrow : row.isEmpty = false) (hlim : st.row_limit = none)
    (hcond : ¬(0 < st.skip_lines ∧ ¬(h = true ∧ st.first_row = true))) :
    rowLoop h (cells :: rest) st =
      rowLoop h rest
        { st with cct := cct₁, first_row := false,
                  rows := st.rows ++ [row] } := by
  rcases Decidable.em (0 < st.skip_lines) with hpos | hneg
  · have hg : h = true ∧ st.first_row = true := by
      by_contra hng
      exact hcond ⟨hpos, hng⟩
    obtain ⟨hH, hF⟩ := hg
    subst hH
    rw [hF] at hcl
    simp [rowLoop, hcl, hrow, hlim, hpos, hF]
  · simp [rowLoop, hcl, hrow, hlim, hneg]

/-- With a row limit but a still-positive skip counter, the limit block is
bypassed and a non-header row is discarded by the skip policy. -/
theorem rowLoop_cons_some_skip (h : Bool) (cells : List Cell)
    (rest : List (List Cell)) (st : LoopState) (row : List (Option String))
    (cct₁ : List (Nat × Option String)) (rl : Int)
    (hcl : cellLoop h st.first_row st.rows.length cells [] 0 st.cct =
      .ok (row, cct₁))
    (hrow : row.isEmpty = false) (hlim : st.row_limit = some rl)
    (hskip : 0 < st.skip_lines)
    (hgate : ¬(h = true ∧ st.first_row = true)) :
    rowLoop h (cells :: rest) st =
      rowLoop h rest
        { st with cct := cct₁, skip_lines := st.skip_lines - 1 } := by
  simp [rowLoop, hcl, hrow, hlim, hskip, hgate, (by omega : ¬ st.skip_lines ≤ 0)]

/-- With a row limit, a positive skip counter, and the header gate on, the
first row falls through the skip policy and is appended. -/
theorem rowLoop_cons_some_skip_append (cells : List Cell)
    (rest : List (List Cell)) (st : LoopState) (row : List (Option String))
    (cct₁ : List (Nat × Option String)) (rl : Int)
    (hcl : cellLoop true st.first_row st.rows.length cells [] 0 st.cct =
      .ok (row, cct₁))
    (hrow : row.isEmpty = false) (hlim : st.row_limit = some rl)
    (hskip : 0 < st.skip_lines) (hfr : st.first_row = true) :
    rowLoop true (cells :: rest) st =
      rowLoop true rest
        { st with cct := cct₁, first_row := false,
                  rows := st.rows ++ [row] } := by
  rw [hfr] at hcl
  simp [rowLoop, hcl, hrow, hlim, hfr]
  intro hc
  exact absurd hc (by omega)

/-! ## Row-count lemmas -/

/-- Unfolding `nonEmptyRowCount` over a cons. -/
theorem nonEmptyRowCount_cons (cells : List Cell) (rest : List (List Cell)) :
    nonEmptyRowCount (cells :: rest) =
      (if (keptCells cells).isEmpty = true then 0 else 1) +
        nonEmptyRowCount rest := by
  by_cases hk : (keptCells cells).isEmpty = true
  · simp [nonEmptyRowCount, hk]
  · simp only [Bool.not_eq_true] at hk
    simp [nonEmptyRowCount, hk, Nat.add_comm]

/-- A row resolves to the empty value list exactly when it has no kept
cells. -/
theorem cellLoop_row_nil_iff (h fr : Bool) (n : Nat) (cells : List Cell)
    (cct : List (Nat × Option String)) (row' : List (Option String))
    (cct' : List (Nat × Option String))
    (heq : cellLoop h fr n cells [] 0 cct = .ok (row', cct')) :
    row' = [] ↔ keptCells cells = [] := by
  have hlen := cellLoop_ok_length h fr n cells [] 0 cct row' cct' heq
  simp only [List.length_nil, Nat.zero_add] at hlen
  constructor
  · intro hh
    rw [hh] at hlen
    simp only [List.length_nil] at hlen
    exact List.length_eq_zero.mp hlen.symm
  · intro hh
    rw [hh] at hlen
    simp only [List.length_nil] at hlen
    exact List.length_eq_zero.mp hlen

/-- Counting phase of the row loop (`header = true`, skip consumed, first
row already retained): each remaining unit of the limit admits exactly one
more data row. -/
theorem rowLoop_limit_count (rows : List (List Cell)) :
    ∀ (st : LoopState) (k : Nat) (st' : LoopState),
    st.first_row = false → st.skip_lines ≤ 0 →
    st.row_limit = some (k : Int) → k ≤ nonEmptyRowCount rows →
    rowLoop true rows st = .ok st' →
    st'.rows.length = st.rows.length + k := by
  induction rows with
  | nil =>
    intro st k st' _ _ _ hcount heq
    simp [nonEmptyRowCount] at hcount
    simp only [rowLoop, Except.ok.injEq] at heq
    subst heq
    omega
  | cons cells rest ih =>
    intro st k st' hfr hsk hlim hcount heq
    cases hcl : cellLoop true st.first_row st.rows.length cells [] 0 st.cct with
    | error e =>
      rw [rowLoop_cons_error true cells rest st e hcl] at heq
      simp at heq
    | ok p =>
      obtain ⟨row, cct₁⟩ := p
      by_cases hrow : row = []
      · rw [rowLoop_cons_empty true cells rest st row cct₁ hcl
          (by simp [hrow])] at heq
        have hkept : keptCells cells = [] :=
          (cellLoop_row_nil_iff true st.first_row st.rows.length cells st.cct
            row cct₁ hcl).mp hrow
        have hcount' : k ≤ nonEmptyRowCount rest := by
          rw [nonEmptyRowCount_cons] at hcount
          simpa [hkept] using hcount
        have := ih { st with cct := cct₁ } k st' (by simp [hfr])
          (by simp [hsk]) (by simp [hlim]) hcount' heq
        simpa using this
      · have hrowb : row.isEmpty = false := by simp [hrow]
        have hkept : ¬ keptCells cells = [] := fun hk =>
          hrow ((cellLoop_row_nil_iff true st.first_row st.rows.length cells
            st.cct row cct₁ hcl).mpr hk)
        have hcount' : k ≤ 1 + nonEmptyRowCount rest := by
          rw [nonEmptyRowCount_cons] at hcount
          simpa [List.isEmpty_iff, hkept] using hcount
        rcases Nat.eq_zero_or_pos k with hk0 | hkpos
        · subst hk0
          rw [rowLoop_cons_break true cells rest st row cct₁ 0 hcl hrowb
            (by simpa using hlim) hsk (by omega)] at heq
          simp only [Except.ok.injEq] at heq
          subst heq
          simp
        · rw [rowLoop_cons_limit_dec true cells rest st row cct₁ (k : Int)
            hcl hrowb hlim hsk (by exact_mod_cast hkpos) (Or.inl hfr)] at heq
          have := ih
            { rows := st.rows ++ [row], first_row := false, cct := cct₁,
              skip_lines := st.skip_lines, row_limit := some ((k : Int) - 1) }
            (k - 1) st' rfl hsk (by simp; omega) (by omega) heq
          simp at this
          omega

/-- Header phase: with `header = true`, no skip and a positive limit `N`, a
sheet offering at least `N + 1` non-empty rows yields the header plus
exactly `N` data rows in the retained-row list. -/
theorem rowLoop_header_count (rows : List (List Cell)) :
    ∀ (st : LoopState) (N : Nat) (st' : LoopState),
    st.first_row = true → st.skip_lines ≤ 0 →
    st.row_limit = some (N : Int) → 1 ≤ N →
    N + 1 ≤ nonEmptyRowCount rows →
    rowLoop true rows st = .ok st' →
    st'.rows.length = st.rows.length + (N + 1) := by
  induction rows with
  | nil =>
    intro st N st' _ _ _ _ hcount _
    simp [nonEmptyRowCount] at hcount
  | cons cells rest ih =>
    intro st N st' hfr hsk hlim hN hcount heq
    cases hcl : cellLoop true st.first_row st.rows.length cells [] 0 st.cct with
    | error e =>
      rw [rowLoop_cons_error true cells rest st e hcl] at heq
      simp at heq
    | ok p =>
      obtain ⟨row, cct₁⟩ := p
      by_cases hrow : row = []
      · rw [rowLoop_cons_empty true cells rest st row cct₁ hcl
          (by simp [hrow])] at heq
        have hkept : keptCells cells = [] :=
          (cellLoop_row_nil_iff true st.first_row st.rows.length cells st.cct
            row cct₁ hcl).mp hrow
        have hcount' : N + 1 ≤ nonEmptyRowCount rest := by
          rw [nonEmptyRowCount_cons] at hcount
          simpa [hkept] using hcount
        have := ih { st with cct := cct₁ } N st' (by simp [hfr])
          (by simp [hsk]) (by simp [hlim]) hN hcount' heq
        simpa using this
      · have hrowb : row.isEmpty = false := by simp [hrow]
        have hkept : ¬ keptCells cells = [] := fun hk =>
          hrow ((cellLoop_row_nil_iff true st.first_row st.rows.length cells
            st.cct row cct₁ hcl).mpr hk)
        have hcount' : N ≤ nonEmptyRowCount rest := by
          rw [nonEmptyRowCount_cons] at hcount
          simp [List.isEmpty_iff, hkept] at hcount
          omega
        rw [rowLoop_cons_limit_first cells rest st row cct₁ (N : Int) hcl
          hrowb hlim hsk (by exact_mod_cast hN) hfr] at heq
        have := rowLoop_limit_count rest
          { rows := st.rows ++ [row], first_row := false, cct := cct₁,
            skip_lines := st.skip_lines, row_limit := some (N : Int) }
          N st' rfl hsk rfl hcount' heq
        simp at this
        omega

/-- Once the break is guaranteed to fire within a prefix (counting phase),
rows beyond it are never read. -/
theorem rowLoop_prefix_count (post : List (List Cell))
    (pre : List (List Cell)) :
    ∀ (st : LoopState) (k : Nat),
    st.first_row = false → st.skip_lines ≤ 0 →
    st.row_limit = some (k : Int) → k + 1 ≤ nonEmptyRowCount pre →
    rowLoop true (pre ++ post) st = rowLoop true pre st := by
  induction pre with
  | nil =>
    intro st k _ _ _ hcount
    simp [nonEmptyRowCount] at hcount
  | cons cells pre' ih =>
    intro st k hfr hsk hlim hcount
    rw [List.cons_append]
    cases hcl : cellLoop true st.first_row st.rows.length cells [] 0 st.cct with
    | error e =>
      rw [rowLoop_cons_error true cells (pre' ++ post) st e hcl,
        rowLoop_cons_error true cells pre' st e hcl]
    | ok p =>
      obtain ⟨row, cct₁⟩ := p
      by_cases hrow : row = []
      · rw [rowLoop_cons_empty true cells (pre' ++ post) st row cct₁ hcl
          (by simp [hrow]),
          rowLoop_cons_empty true cells pre' st row cct₁ hcl
            (by simp [hrow])]
        have hkept : keptCells cells = [] :=
          (cellLoop_row_nil_iff true st.first_row st.rows.length cells st.cct
            row cct₁ hcl).mp hrow
        refine ih _ k (by simp [hfr]) (by simp [hsk]) (by simp [hlim]) ?_
        rw [nonEmptyRowCount_cons] at hcount
        simpa [hkept] using hcount
      · have hrowb : row.isEmpty = false := by simp [hrow]
        have hkept : ¬ keptCells cells = [] := fun hk =>
          hrow ((cellLoop_row_nil_iff true st.first_row st.rows.length cells
            st.cct row cct₁ hcl).mpr hk)
        rcases Nat.eq_zero_or_pos k with hk0 | hkpos
        · subst hk0
          rw [rowLoop_cons_break true cells (pre' ++ post) st row cct₁ 0 hcl
            hrowb (by simpa using hlim) hsk (by omega),
            rowLoop_cons_break true cells pre' st row cct₁ 0 hcl hrowb
              (by simpa using hlim) hsk (by omega)]
        · rw [rowLoop_cons_limit_dec true cells (pre' ++ post) st row cct₁
            (k : Int) hcl hrowb hlim hsk (by exact_mod_cast hkpos)
            (Or.inl hfr),
            rowLoop_cons_limit_dec true cells pre' st row cct₁ (k : Int) hcl
              hrowb hlim hsk (by exact_mod_cast hkpos) (Or.inl hfr)]
          refine ih _ (k - 1) rfl hsk (by simp; omega) ?_
          rw [nonEmptyRowCount_cons] at hcount
          simp [List.isEmpty_iff, hkept] at hcount
          omega

/-- Header-phase version of `rowLoop_prefix_count`: with at least `N + 2`
non-empty rows in the prefix (header, `N` data rows, and the row firing the
break), any rows appended after the prefix leave the loop's result
unchanged. -/
theorem rowLoop_prefix_header (post : List (List Cell))
    (pre : List (List Cell)) :
    ∀ (st : LoopState) (N : Nat),
    st.first_row = true → st.skip_lines ≤ 0 →
    st.row_limit = some (N : Int) → 1 ≤ N →
    N + 2 ≤ nonEmptyRowCount pre →
    rowLoop true (pre ++ post) st = rowLoop true pre st := by
  induction pre with
  | nil =>
    intro st N _ _ _ _ hcount
    simp [nonEmptyRowCount] at hcount
  | cons cells pre' ih =>
    intro st N hfr hsk hlim hN hcount
    rw [List.cons_append]
    cases hcl : cellLoop true st.first_row st.rows.length cells [] 0 st.cct with
    | error e =>
      rw [rowLoop_cons_error true cells (pre' ++ post) st e hcl,
        rowLoop_cons_error true cells pre' st e hcl]
    | ok p =>
      obtain ⟨row, cct₁⟩ := p
      by_cases hrow : row = []
      · rw [rowLoop_cons_empty true cells (pre' ++ post) st row cct₁ hcl
          (by simp [hrow]),
          rowLoop_cons_empty true cells pre' st row cct₁ hcl
            (by simp [hrow])]
        have hkept : keptCells cells = [] :=
          (cellLoop_row_nil_iff true st.first_row st.rows.length cells st.cct
            row cct₁ hcl).mp hrow
        refine ih _ N (by simp [hfr]) (by simp [hsk]) (by simp [hlim]) hN ?_
        rw [nonEmptyRowCount_cons] at hcount
        simpa [hkept] using hcount
      · have hrowb : row.isEmpty = false := by simp [hrow]
        have hkept : ¬ keptCells cells = [] := fun hk =>
          hrow ((cellLoop_row_nil_iff true st.first_row st.rows.length cells
            st.cct row cct₁ hcl).mpr hk)
        rw [rowLoop_cons_limit_first cells (pre' ++ post) st row cct₁
          (N : Int) hcl hrowb hlim hsk (by exact_mod_cast hN) hfr,
          rowLoop_cons_limit_first cells pre' st row cct₁ (N : Int) hcl
            hrowb hlim hsk (by exact_mod_cast hN) hfr]
        refine rowLoop_prefix_count post pre' _ N rfl hsk rfl ?_
        rw [nonEmptyRowCount_cons] at hcount
        simp [List.isEmpty_iff, hkept] at hcount
        omega

/-- C2: with `header = true`, `skip_lines = 0` and `row_limit = N > 0`, a
sheet offering at least `N + 1` non-empty rows gives a table of exactly `N`
data rows (the header row does not count against the limit); and once the
break fires inside a prefix holding `N + 2` non-empty rows, rows appended
after that prefix are never read (`break`, not `continue`). -/
theorem c2_row_limit :
    (∀ (doc : Doc) (sel : Selector) (kwargs : Kwargs) (N : Nat) (s : Sheet)
        (t : AgateTable),
      1 ≤ N → select_sheet doc sel = .ok s →
      N + 1 ≤ nonEmptyRowCount s.rows →
      from_ods doc sel 0 true (some (N : Int)) kwargs = .ok t →
      t.rows.length = N) ∧
    (∀ (name : String) (pre post : List (List Cell)) (N : Nat)
        (kwargs : Kwargs),
      1 ≤ N → N + 2 ≤ nonEmptyRowCount pre →
      from_ods ⟨[⟨name, pre ++ post⟩]⟩ .none 0 true (some (N : Int)) kwargs =
        from_ods ⟨[⟨name, pre⟩]⟩ .none 0 true (some (N : Int)) kwargs) := by
  constructor
  · intro doc sel kwargs N s t hN hsel hcount hok
    unfold from_ods at hok
    have hstate : from_ods_state doc sel 0 true (some (N : Int)) =
        rowLoop true s.rows
          { rows := [], first_row := true, cct := [], skip_lines := 0,
            row_limit := some (N : Int) } := by
      unfold from_ods_state
      rw [hsel]
    rw [hstate] at hok
    cases hloop : rowLoop true s.rows
        { rows := [], first_row := true, cct := [], skip_lines := 0,
          row_limit := some (N : Int) } with
    | error e => rw [hloop] at hok; simp at hok
    | ok st =>
      rw [hloop] at hok
      have hlen := rowLoop_header_count s.rows
        { rows := [], first_row := true, cct := [], skip_lines := 0,
          row_limit := some (N : Int) }
        N st rfl (by norm_num) rfl hN hcount hloop
      simp only [List.length_nil, Nat.zero_add] at hlen
      cases hts : kwargs.column_types with
      | some ts =>
        simp only [hts] at hok
        cases hrows : st.rows with
        | nil => rw [hrows] at hlen; simp at hlen
        | cons r0 restRows =>
          rw [hrows] at hok hlen
          simp only [List.length_cons] at hlen
          simp at hok
          rw [← hok]
          show restRows.length = N
          omega
      | none =>
        simp only [hts] at hok
        cases hcc : computed_column_types st.cct with
        | error e => rw [hcc] at hok; simp at hok
        | ok cts =>
          rw [hcc] at hok
          cases hrows : st.rows with
          | nil => rw [hrows] at hlen; simp at hlen
          | cons r0 restRows =>
            rw [hrows] at hok hlen
            simp only [List.length_cons] at hlen
            simp at hok
            rw [← hok]
            show restRows.length = N
            omega
  · intro name pre post N kwargs hN hcount
    have hsel1 : select_sheet ⟨[⟨name, pre ++ post⟩]⟩ .none =
        .ok ⟨name, pre ++ post⟩ := by
      simp [select_sheet, pyGet]
    have hsel2 : select_sheet ⟨[⟨name, pre⟩]⟩ .none = .ok ⟨name, pre⟩ := by
      simp [select_sheet, pyGet]
    have h1 : from_ods_state ⟨[⟨name, pre ++ post⟩]⟩ .none 0 true
        (some (N : Int)) =
        from_ods_state ⟨[⟨name, pre⟩]⟩ .none 0 true (some (N : Int)) := by
      unfold from_ods_state
      rw [hsel1, hsel2]
      exact rowLoop_prefix_header post pre _ N rfl (by norm_num) rfl hN hcount
    unfold from_ods
    rw [h1]

/-- Witness for `c2_row_limit`. -/
theorem c2_row_limit_witness :
    (AgateTable.rows
        { rows := [[some "1"], [some "2"]], column_names := [some "h"],
          column_types := Option.none }).length = 2 ∧
    from_ods ⟨[⟨"Sheet1", fourRows ++
        [[strCell "z"]]⟩]⟩ .none 0 true (some (2 : Int))
        ⟨Option.none, Option.none⟩ =
      from_ods ⟨[⟨"Sheet1", fourRows⟩]⟩ .none 0 true
        (some (2 : Int)) ⟨Option.none, Option.none⟩ :=
  ⟨c2_row_limit.1 docFourRows .none ⟨Option.none, Option.none⟩ 2
      ⟨"Sheet1", fourRows⟩ _ (by norm_num) rfl (by decide) rfl,
   c2_row_limit.2 "Sheet1" fourRows [[strCell "z"]] 2
      ⟨Option.none, Option.none⟩ (by norm_num) (by decide)⟩

/-- C3: on a non-header data row, (i) a successful cell loop means every
kept cell at an already-recorded column carries exactly the recorded declared
type; (ii) a kept cell whose declared type differs from the recorded type at
its column — earlier cells resolving and consistent — makes the cell loop
fail with the type-mismatch error naming the row and column; and (iii) a row
loop failure makes `from_ods` fail with that same error, so no table is
returned. -/
theorem c3_column_type_invariant :
    (∀ (header first_row : Bool) (n : Nat) (cells : List Cell)
        (cct : List (Nat × Option String)) (row' : List (Option String))
        (cct' : List (Nat × Option String)),
      (header && first_row) = false →
      cellLoop header first_row n cells [] 0 cct = .ok (row', cct') →
      ∀ (j : Nat) (t t' : Option String),
        calcLookup cct j = some t → keptTypeAt cells j = some t' →
        t' = t) ∧
    (∀ (header first_row : Bool) (n : Nat) (cells : List Cell)
        (cct : List (Nat × Option String)) (j : Nat) (t t' : Option String),
      (header && first_row) = false →
      (∀ i, i < j → ∃ c, (keptCells cells)[i]? = some c ∧
          resolveOk c = true ∧
          (calcLookup cct i = none ∨
           calcLookup cct i = some (attrGet c value_type_attr))) →
      calcLookup cct j = some t →
      keptTypeAt cells j = some t' →
      (∃ c, (keptCells cells)[j]? = some c ∧ resolveOk c = true) →
      t' ≠ t →
      cellLoop header first_row n cells [] 0 cct =
        .error (.typeError ("Type mismatch at row " ++ toString n ++
          " column " ++ toString j))) ∧
    (∀ (doc : Doc) (sheet : Selector) (skip_lines : Int) (header : Bool)
        (row_limit : Option Int) (kwargs : Kwargs) (e : PyErr),
      from_ods_state doc sheet skip_lines header row_limit = .error e →
      from_ods doc sheet skip_lines header row_limit kwargs = .error e) := by
  refine ⟨?_, ?_, ?_⟩
  · intro header first_row n cells cct row' cct' hg heq j t t' hl hk
    exact cellLoop_ok_consistent header first_row hg n cells [] 0 cct row'
      cct' heq j t t' (by simpa using hl) hk
  · intro header first_row n cells cct j t t' hg hpre hl hk hex hne
    have := cellLoop_mismatch header first_row hg n cells [] 0 cct j t t'
      (fun i hi => by simpa using hpre i hi) (by simpa using hl) hk hex hne
    simpa using this
  · intro doc sheet skip_lines header row_limit kwargs e hst
    simp [from_ods, hst]

/-- Witness for `c3_column_type_invariant`. -/
theorem c3_column_type_invariant_witness :
    ((some "float" : Option String) = some "float") ∧
    cellLoop true false 1 [strCell "y"] [] 0 [(0, some "float")] =
      .error (.typeError ("Type mismatch at row " ++ toString 1 ++
        " column " ++ toString 0)) ∧
    from_ods docSkipMismatch .none 1 true Option.none
        ⟨Option.none, Option.none⟩ =
      .error (.typeError "Type mismatch at row 1 column 0") :=
  ⟨c3_column_type_invariant.1 true false 0 [floatCell "2"]
      [(0, some "float")] [some "2"] [(0, some "float")] rfl rfl 0
      (some "float") (some "float") rfl rfl,
   c3_column_type_invariant.2.1 true false 1 [strCell "y"]
      [(0, some "float")] 0 (some "float") (some "string") rfl
      (fun i hi => absurd hi (by omega)) rfl rfl
      ⟨strCell "y", rfl, rfl⟩ (by decide),
   c3_column_type_invariant.2.2 docSkipMismatch .none 1 true Option.none
      ⟨Option.none, Option.none⟩ (.typeError "Type mismatch at row 1 column 0")
      rfl⟩

/-- With no row limit, two runs differing only in skip budget (and in the
retained rows) build the same observation dictionary: the header gate is the
only thing that exempts cells from observation, and it tracks the first
retained row identically in both runs. -/
theorem rowLoop_cct_bisim (h : Bool) (rows : List (List Cell)) :
    ∀ (st1 st2 st1' st2' : LoopState),
    st1.cct = st2.cct → st1.row_limit = none → st2.row_limit = none →
    (h = true → st1.first_row = st2.first_row) →
    rowLoop h rows st1 = .ok st1' → rowLoop h rows st2 = .ok st2' →
    st1'.cct = st2'.cct ∧ (h = true → st1'.first_row = st2'.first_row) := by
  induction rows with
  | nil =>
    intro st1 st2 st1' st2' hcct _ _ hfr h1 h2
    simp only [rowLoop, Except.ok.injEq] at h1 h2
    subst h1
    subst h2
    exact ⟨hcct, hfr⟩
  | cons cells rest ih =>
    intro st1 st2 st1' st2' hcct hl1 hl2 hfr h1 h2
    have hgate : (h && st1.first_row) = (h && st2.first_row) := by
      cases h with
      | false => simp
      | true => simp [hfr rfl]
    cases hcl1 : cellLoop h st1.first_row st1.rows.length cells [] 0 st1.cct with
    | error e =>
      rw [rowLoop_cons_error h cells rest st1 e hcl1] at h1
      simp at h1
    | ok p =>
      obtain ⟨row, cct₁⟩ := p
      have hcl2 : cellLoop h st2.first_row st2.rows.length cells [] 0
          st2.cct = .ok (row, cct₁) := by
        have e1 := cellLoop_gate h st2.first_row h st1.first_row hgate.symm
          st1.rows.length cells [] 0 st2.cct
        have e2 : cellLoop h st2.first_row st1.rows.length cells [] 0
            st2.cct = .ok (row, cct₁) := by
          rw [e1, ← hcct]
          exact hcl1
        exact cellLoop_ok_n h st2.first_row st1.rows.length st2.rows.length
          cells [] 0 st2.cct (row, cct₁) e2
      by_cases hrow : row = []
      · rw [rowLoop_cons_empty h cells rest st1 row cct₁ hcl1
          (by simp [hrow])] at h1
        rw [rowLoop_cons_empty h cells rest st2 row cct₁ hcl2
          (by simp [hrow])] at h2
        exact ih _ _ _ _ (by simp) (by simp [hl1]) (by simp [hl2])
          (fun hh => by simpa using hfr hh) h1 h2
      · have hrowb : row.isEmpty = false := by simp [hrow]
        by_cases s1 : 0 < st1.skip_lines ∧ ¬(h = true ∧ st1.first_row = true)
        · rw [rowLoop_cons_none_skip h cells rest st1 row cct₁ hcl1 hrowb
            hl1 s1.1 s1.2] at h1
          by_cases s2 : 0 < st2.skip_lines ∧ ¬(h = true ∧ st2.first_row = true)
          · rw [rowLoop_cons_none_skip h cells rest st2 row cct₁ hcl2 hrowb
              hl2 s2.1 s2.2] at h2
            exact ih _ _ _ _ (by simp) (by simp [hl1]) (by simp [hl2])
              (fun hh => by simpa using hfr hh) h1 h2
          · rw [rowLoop_cons_none_append h cells rest st2 row cct₁ hcl2
              hrowb hl2 s2] at h2
            refine ih _ _ _ _ (by simp) (by simp [hl1]) (by simp [hl2]) ?_
              h1 h2
            intro hh
            subst hh
            have hfr1 : st1.first_row = false := by
              cases hb : st1.first_row
              · rfl
              · exact absurd ⟨rfl, hb⟩ s1.2
            simp [hfr1]
        · rw [rowLoop_cons_none_append h cells rest st1 row cct₁ hcl1 hrowb
            hl1 s1] at h1
          by_cases s2 : 0 < st2.skip_lines ∧ ¬(h = true ∧ st2.first_row = true)
          · rw [rowLoop_cons_none_skip h cells rest st2 row cct₁ hcl2 hrowb
              hl2 s2.1 s2.2] at h2
            refine ih _ _ _ _ (by simp) (by simp [hl1]) (by simp [hl2]) ?_
              h1 h2
            intro hh
            subst hh
            have hfr2 : st2.first_row = false := by
              cases hb : st2.first_row
              · rfl
              · exact absurd ⟨rfl, hb⟩ s2.2
            simp [hfr2]
          · rw [rowLoop_cons_none_append h cells rest st2 row cct₁ hcl2
              hrowb hl2 s2] at h2
            exact ih _ _ _ _ (by simp) (by simp [hl1]) (by simp [hl2])
              (fun hh => by simp) h1 h2

/-- C9: (i) without a row limit the final observation dictionary does not
depend on `skip_lines` — rows discarded by the skip policy are observed all
the same; (ii) at a concrete document with `row_limit = 1`, the row that
fires the break still contributes a brand-new column observation while never
appearing among the retained rows; (iii) at a concrete document a row
discarded by `skip_lines` triggers the `ColumnTypeMismatch` failure. -/
theorem c9_observation_before_policy :
    (∀ (doc : Doc) (sel : Selector) (header : Bool) (sk : Int)
        (st1 st2 : LoopState),
      from_ods_state doc sel sk header Option.none = .ok st1 →
      from_ods_state doc sel 0 header Option.none = .ok st2 →
      st1.cct = st2.cct) ∧
    from_ods_state docLimitObserve .none 0 true (some 1) =
      .ok { rows := [[some "a", some "b"], [some "1"]], first_row := false,
            cct := [(0, some "float"), (1, some "string")], skip_lines := 0,
            row_limit := some 0 } ∧
    from_ods docSkipMismatch .none 1 true Option.none
        ⟨Option.none, Option.none⟩ =
      .error (.typeError "Type mismatch at row 1 column 0") := by
  refine ⟨?_, rfl, rfl⟩
  intro doc sel header sk st1 st2 h1 h2
  unfold from_ods_state at h1 h2
  cases hsel : select_sheet doc sel with
  | error e => rw [hsel] at h1; simp at h1
  | ok s =>
    rw [hsel] at h1 h2
    exact (rowLoop_cct_bisim header s.rows
      { rows := [], first_row := true, cct := [], skip_lines := sk,
        row_limit := none }
      { rows := [], first_row := true, cct := [], skip_lines := 0,
        row_limit := none }
      st1 st2 rfl rfl rfl (fun _ => rfl) h1 h2).1

/-- Witness for `c9_observation_before_policy`. -/
theorem c9_observation_before_policy_witness :
    LoopState.cct
      { rows := [[some "a", some "b"]], first_row := false,
        cct := [(0, some "float"), (1, some "string")], skip_lines := 0,
        row_limit := Option.none } =
    LoopState.cct
      { rows := [[some "a", some "b"], [some "1", some "x"]],
        first_row := false,
        cct := [(0, some "float"), (1, some "string")], skip_lines := 0,
        row_limit := Option.none } :=
  c9_observation_before_policy.1 docHeaderFloatString .none true 1
    { rows := [[some "a", some "b"]], first_row := false,
      cct := [(0, some "float"), (1, some "string")], skip_lines := 0,
      row_limit := Option.none }
    { rows := [[some "a", some "b"], [some "1", some "x"]],
      first_row := false,
      cct := [(0, some "float"), (1, some "string")], skip_lines := 0,
      row_limit := Option.none }
    rfl rfl

end AgateOds
